import Mathlib

/-!
Verification of the digital-content-broker news aggregation service.

The repository contains two variants of the same Express service:
* `src/unnamed/part_000` — the full variant: classifier, SHA-256 fingerprints,
  dedup-by-url, digest composition with scored sections and citations;
* `src/server.js` — a reduced variant: SHA-1 of the url as id, hardcoded
  classification, no digest endpoint.

This file gives a shallow embedding of both variants' pure logic
(string pattern tests, classification, normalization, fingerprinting,
deduplication, section scoring/ranking, citation assembly, the auth check,
and the parameter-building / fail-fast part of the outbound search call)
and proves the specification claims against it.  JavaScript strings are
modelled as `String` (with `Option String` for possibly-`undefined` fields),
JS falsiness of strings by the empty-string test, and the regular expressions
of the source — all of which are plain alternations of literal substrings —
by substring containment of each alternative.
-/

namespace Broker

/-- JS `a || b` on a possibly-undefined string: `undefined` and `""` are falsy. -/
def jsOr (a : Option String) (b : String) : String :=
  match a with
  | none => b
  | some s => if s = "" then b else s

/-- JS `a || b` on a plain string: `""` is falsy. -/
def jsOrS (a b : String) : String :=
  if a = "" then b else a

/-- JS `String.prototype.toLowerCase` (ASCII view, as used by the source's
regex matching over lowercased blobs). -/
def lcStr (s : String) : String :=
  String.mk (s.toList.map Char.toLower)

/-- Contiguous-substring test on character lists: `p` occurs inside `t`. -/
def containsSub (t p : List Char) : Bool :=
  match t with
  | [] => p.isEmpty
  | _ :: rest => p.isPrefixOf t || containsSub rest p

/-- JS `regex.test(t)` for a regex that is an alternation of literal substrings,
and also JS `String.prototype.includes`: does `t` contain `p`? -/
def strIncl (t p : String) : Bool :=
  containsSub t.toList p.toList

/-- Test an alternation-of-literals regex against a text blob. -/
def testAny (pats : List String) (t : String) : Bool :=
  pats.any (fun p => strIncl t p)

/-! ### SHA-256 and SHA-1 (Node `crypto.createHash`), over ASCII byte lists -/

/-- Truncation to a 32-bit word. -/
def w32 (n : Nat) : Nat := n % 4294967296

/-- Right rotation of a 32-bit word by `n` bits. -/
def rotr (n x : Nat) : Nat :=
  w32 (x / 2 ^ n + x % 2 ^ n * 2 ^ (32 - n))

/-- Left rotation of a 32-bit word by `n` bits. -/
def rotl (n x : Nat) : Nat :=
  w32 (x % 2 ^ (32 - n) * 2 ^ n + x / 2 ^ (32 - n))

/-- Bitwise complement of a 32-bit word. -/
def compl32 (x : Nat) : Nat := Nat.xor x 4294967295

/-- Big-endian 8-byte encoding of a (bit-length) number. -/
def be64 (n : Nat) : List Nat :=
  (List.range 8).map (fun i => n / 2 ^ (8 * (7 - i)) % 256)

/-- Merkle–Damgård padding shared by SHA-1 and SHA-256: append `0x80`,
zero bytes, and the 64-bit big-endian bit length, to a multiple of 64 bytes. -/
def shaPad (msg : List Nat) : List Nat :=
  let z := (64 - (msg.length + 9) % 64) % 64
  msg ++ 128 :: List.replicate z 0 ++ be64 (8 * msg.length)

/-- Group a byte list into big-endian 32-bit words. -/
def toWords : List Nat → List Nat
  | b0 :: b1 :: b2 :: b3 :: rest =>
      (b0 * 16777216 + b1 * 65536 + b2 * 256 + b3) :: toWords rest
  | _ => []

/-- Split a word list into 16-word blocks (fuel-based structural recursion;
`fuel = ws.length` always suffices since each step consumes 16 > 0 words). -/
def toBlocksF : Nat → List Nat → List (List Nat)
  | 0, _ => []
  | _ + 1, [] => []
  | fuel + 1, ws => ws.take 16 :: toBlocksF fuel (ws.drop 16)

/-- Split a word list into 16-word blocks. -/
def toBlocks (ws : List Nat) : List (List Nat) :=
  toBlocksF ws.length ws

/-- The 64 SHA-256 round constants of FIPS 180-4, written in decimal. -/
def K256 : List Nat :=
  [1116352408, 1899447441, 3049323471, 3921009573, 961987163, 1508970993,
   2453635748, 2870763221, 3624381080, 310598401, 607225278, 1426881987,
   1925078388, 2162078206, 2614888103, 3248222580, 3835390401, 4022224774,
   264347078, 604807628, 770255983, 1249150122, 1555081692, 1996064986,
   2554220882, 2821834349, 2952996808, 3210313671, 3336571891, 3584528711,
   113926993, 338241895, 666307205, 773529912, 1294757372, 1396182291,
   1695183700, 1986661051, 2177026350, 2456956037, 2730485921, 2820302411,
   3259730800, 3345764771, 3516065817, 3600352804, 4094571909, 275423344,
   430227734, 506948616, 659060556, 883997877, 958139571, 1322822218,
   1537002063, 1747873779, 1955562222, 2024104815, 2227730452, 2361852424,
   2428436474, 2756734187, 3204031479, 3329325298]

/-- The SHA-256 initial hash value of FIPS 180-4, written in decimal. -/
def H256init : List Nat :=
  [1779033703, 3144134277, 1013904242, 2773480762,
   1359893119, 2600822924, 528734635, 1541459225]

/-- SHA-256 small sigma 0. -/
def ssig0 (x : Nat) : Nat := Nat.xor (Nat.xor (rotr 7 x) (rotr 18 x)) (x / 8)

/-- SHA-256 small sigma 1. -/
def ssig1 (x : Nat) : Nat := Nat.xor (Nat.xor (rotr 17 x) (rotr 19 x)) (x / 1024)

/-- Extend a 16-word block by `k` further schedule words. -/
def buildW : List Nat → Nat → List Nat
  | ws, 0 => ws
  | ws, Nat.succ k =>
      buildW (ws ++ [w32 (ssig1 (ws.getD (ws.length - 2) 0) +
        ws.getD (ws.length - 7) 0 +
        ssig0 (ws.getD (ws.length - 15) 0) +
        ws.getD (ws.length - 16) 0)]) k

/-- One SHA-256 compression round on state `[a,b,c,d,e,f,g,h]`. -/
def step256 (st : List Nat) (k w : Nat) : List Nat :=
  match st with
  | [a, b, c, d, e, f, g, h] =>
      let s1 := Nat.xor (Nat.xor (rotr 6 e) (rotr 11 e)) (rotr 25 e)
      let ch := Nat.xor (Nat.land e f) (Nat.land (compl32 e) g)
      let t1 := w32 (h + s1 + ch + k + w)
      let s0 := Nat.xor (Nat.xor (rotr 2 a) (rotr 13 a)) (rotr 22 a)
      let mj := Nat.xor (Nat.xor (Nat.land a b) (Nat.land a c)) (Nat.land b c)
      let t2 := w32 (s0 + mj)
      [w32 (t1 + t2), a, b, c, w32 (d + t1), e, f, g]
  | st => st

/-- SHA-256 compression of one block into the running hash. -/
def processBlock256 (H : List Nat) (block : List Nat) : List Nat :=
  let W := buildW block 48
  let st := (W.zip K256).foldl (fun s p => step256 s p.2 p.1) H
  (H.zip st).map (fun p => w32 (p.1 + p.2))

/-- SHA-256 of a byte list, as eight 32-bit words. -/
def sha256 (msg : List Nat) : List Nat :=
  (toBlocks (toWords (shaPad msg))).foldl processBlock256 H256init

/-- A hex digit character. -/
def hexChar (n : Nat) : Char :=
  if n < 10 then Char.ofNat (48 + n) else Char.ofNat (87 + n)

/-- Lowercase hex rendering of a 32-bit word, 8 digits. -/
def wordHex (w : Nat) : List Char :=
  (List.range 8).map (fun i => hexChar (w / 2 ^ (4 * (7 - i)) % 16))

/-- Node `hash.digest("hex")`: lowercase hex of the digest words. -/
def digestHex (ws : List Nat) : String :=
  String.mk (ws.map wordHex).flatten

/-- Byte view of a string (ASCII view; every string the service hashes —
urls, ISO timestamps, the `|` separator — is ASCII). -/
def strBytes (s : String) : List Nat :=
  s.toList.map Char.toNat

/-- `crypto.createHash("sha256").update(s).digest("hex")`. -/
def sha256hex (s : String) : String :=
  digestHex (sha256 (strBytes s))

/-- The SHA-1 initial hash value of FIPS 180-4, written in decimal. -/
def H1init : List Nat :=
  [1732584193, 4023233417, 2562383102, 271733878, 3285377520]

/-- SHA-1 round function, by round index. -/
def f1 (i b c d : Nat) : Nat :=
  if i < 20 then Nat.xor (Nat.land b c) (Nat.land (compl32 b) d)
  else if i < 40 then Nat.xor (Nat.xor b c) d
  else if i < 60 then Nat.xor (Nat.xor (Nat.land b c) (Nat.land b d)) (Nat.land c d)
  else Nat.xor (Nat.xor b c) d

/-- SHA-1 round constant (decimal), by round index. -/
def k1 (i : Nat) : Nat :=
  if i < 20 then 1518500249
  else if i < 40 then 1859775393
  else if i < 60 then 2400959708
  else 3395469782

/-- Extend a 16-word block by `k` further SHA-1 schedule words. -/
def buildW1 : List Nat → Nat → List Nat
  | ws, 0 => ws
  | ws, Nat.succ k =>
      buildW1 (ws ++ [rotl 1 (Nat.xor
        (Nat.xor (ws.getD (ws.length - 3) 0) (ws.getD (ws.length - 8) 0))
        (Nat.xor (ws.getD (ws.length - 14) 0) (ws.getD (ws.length - 16) 0)))]) k

/-- One SHA-1 compression round on state `[a,b,c,d,e]`. -/
def step1 (st : List Nat) (i w : Nat) : List Nat :=
  match st with
  | [a, b, c, d, e] =>
      let t := w32 (rotl 5 a + f1 i b c d + e + k1 i + w)
      [t, a, rotl 30 b, c, d]
  | st => st

/-- SHA-1 compression of one block into the running hash. -/
def processBlock1 (H : List Nat) (block : List Nat) : List Nat :=
  let W := buildW1 block 64
  let st := ((List.range 80).zip W).foldl (fun s p => step1 s p.1 p.2) H
  (H.zip st).map (fun p => w32 (p.1 + p.2))

/-- SHA-1 of a byte list, as five 32-bit words. -/
def sha1 (msg : List Nat) : List Nat :=
  (toBlocks (toWords (shaPad msg))).foldl processBlock1 H1init

/-- `crypto.createHash("sha1").update(s).digest("hex")`. -/
def sha1hex (s : String) : String :=
  digestHex (sha1 (strBytes s))

/-! ### Data model -/

/-- JS falsiness of a possibly-undefined string. -/
def jsFalsy : Option String → Bool
  | none => true
  | some s => decide (s = "")

/-- A raw provider article record (`data.articles[i]`); fields other than
`url` may be absent. -/
structure RawArticle where
  title : Option String
  description : Option String
  url : String
  publishedAt : Option String
deriving DecidableEq

/-- The classifier's verdict, as returned by `classifyDigitalFirst`. -/
structure Classification where
  digital_first : Bool
  excluded_reasons : List String
deriving DecidableEq

/-- The canonical item shape built by the `part_000` variant's mappings. -/
structure Item where
  id : String
  title : String
  url : String
  source : String
  published_at : String
  snippet : String
  labels : List String
  classification : Classification
deriving DecidableEq

/-- The item shape built by the `server.js` variant (no `labels`, no field
defaults, hardcoded classification). -/
structure ServerItem where
  id : String
  title : Option String
  url : String
  source : String
  published_at : Option String
  snippet : Option String
  classification : Classification
deriving DecidableEq

/-! ### Classifier (`classifyDigitalFirst`, src/unnamed/part_000 lines 131-147) -/

/-- Alternatives of the `linear` exclusion regex
`/(broadcast|linear tv|cable|syndication)/`. -/
def linearPat : List String :=
  ["broadcast", "linear tv", "cable", "syndication"]

/-- Alternatives of the `streaming` exclusion regex
`/(netflix|prime video|disney\+|hulu|paramount\+|apple tv|streaming)/`. -/
def streamingPat : List String :=
  ["netflix", "prime video", "disney+", "hulu", "paramount+", "apple tv", "streaming"]

/-- Alternatives of the digital-first hint regex. -/
def digitalHints : List String :=
  ["youtube", "tiktok", "instagram", "shorts", "reels", "creator",
   "web series", "newsletter", "substack", "patreon", "discord"]

/-- The lowercased text blob the classifier matches against:
`` `${title}\n${description}\n${url}`.toLowerCase() ``. -/
def classifyText (title description url : String) : String :=
  lcStr (title ++ "\n" ++ description ++ "\n" ++ url)

/-- The classifier, `classifyDigitalFirst` of `part_000`: exclusion tags are
appended in fixed vocabulary order (`linear` then `streaming`), each only when
both requested in `exclude` and matched in the blob; `digital_first` is the
conjunction of no exclusion having fired and the hint pattern matching. -/
def classifyDigitalFirst (title description url : String) (exclude : List String) :
    Classification :=
  let text := classifyText title description url
  let er₁ : List String :=
    if exclude.contains "linear" && testAny linearPat text then ["linear"] else []
  let er : List String :=
    er₁ ++ (if exclude.contains "streaming" && testAny streamingPat text
            then ["streaming"] else [])
  { digital_first := er.isEmpty && testAny digitalHints text, excluded_reasons := er }

/-- The blob the pipeline feeds to the classifier for a raw article. -/
def rawText (a : RawArticle) : String :=
  classifyText (jsOr a.title "") (jsOr a.description "") a.url

/-! ### Normalization and fingerprints -/

/-- The fingerprint `stableId` of `part_000`:
SHA-256 of `` `${url}|${publishedAt || ""}` `` in hex. -/
def stableId (url publishedAt : String) : String :=
  sha256hex (url ++ "|" ++ jsOrS publishedAt "")

/-- The fingerprint `idFor` of `server.js`: SHA-1 of the url alone, in hex. -/
def idFor (url : String) : String :=
  sha1hex url

/-- The per-article item construction shared by both `part_000` routes
(`GET /v1/feeds/:feed_id/items` and `POST /v1/newsletter/digest`); `now` is
the injected value of `isoNow()` for this article. -/
def normalizeItem (feedId : String) (exclude : List String) (now : String)
    (a : RawArticle) : Item :=
  let published_at := jsOr a.publishedAt now
  let classification :=
    classifyDigitalFirst (jsOr a.title "") (jsOr a.description "") a.url exclude
  { id := stableId a.url published_at
    title := jsOr a.title "(untitled)"
    url := a.url
    source := feedId
    published_at := published_at
    snippet := jsOr a.description ""
    labels := []
    classification := classification }

/-- The item list built by the `part_000` mappings from one feed's articles. -/
def p0Items (feedId : String) (exclude : List String) (now : String)
    (raws : List RawArticle) : List Item :=
  raws.map (normalizeItem feedId exclude now)

/-- The per-article item construction of `server.js`
(`GET /v1/feeds/:feed_id/items` lines 107-115): raw fields are passed through
and classification is the constant `{digital_first: true, excluded_reasons: []}`. -/
def serverItemOf (feedId : String) (a : RawArticle) : ServerItem :=
  { id := idFor a.url
    title := a.title
    url := a.url
    source := feedId
    published_at := a.publishedAt
    snippet := a.description
    classification := { digital_first := true, excluded_reasons := [] } }

/-- The item list built by the `server.js` items route from one feed's articles. -/
def serverItems (feedId : String) (raws : List RawArticle) : List ServerItem :=
  raws.map (serverItemOf feedId)

/-! ### Deduplication (the `byUrl` map of POST /v1/newsletter/digest) -/

/-- JS `Map.prototype.set` on an insertion-ordered association list (keys are
unique): an existing key keeps its position and gets the new value; a new key
is appended at the end. -/
def mapSet : List (String × Item) → String → Item → List (String × Item)
  | [], k, v => [(k, v)]
  | p :: rest, k, v => if p.1 = k then (k, v) :: rest else p :: mapSet rest k v

/-- The dedup of `part_000` lines 287-289: insert every item into a JS `Map`
keyed by url, then read the values off in map order. -/
def dedupeByUrl (all : List Item) : List Item :=
  (all.foldl (fun m it => mapSet m it.url it) []).map Prod.snd

/-- The urls of a list in order of first appearance, without repetitions. -/
def firstOccur : List String → List String
  | [] => []
  | u :: us => u :: (firstOccur us).filter (fun v => v != u)

/-- The last item of a list carrying a given url, if any. -/
def lastWithUrl (k : String) (all : List Item) : Option Item :=
  (all.filter (fun it => it.url == k)).getLast?

/-- The working item set of the digest route after dedup and the optional
digital-first filter. -/
def digestItems (all : List Item) (digitalFirstOnly : Bool) : List Item :=
  let items := dedupeByUrl all
  if digitalFirstOnly then items.filter (fun i => i.classification.digital_first)
  else items

/-! ### Digest composition (sections, scoring, citations) -/

/-- The four fixed section names, in composition order. -/
def sectionNames : List String :=
  ["New digital-first launches",
   "Formats & creator series to watch",
   "Platform moves & monetization",
   "Examples (what to steal—in a legal way)"]

/-- Alternatives of the launches scoring regex. -/
def launchPat : List String :=
  ["launch", "announce", "debut", "unveil", "introduc"]

/-- Alternatives of the formats scoring regex. -/
def formatsPat : List String :=
  ["series", "format", "episod", "season", "shorts", "reels"]

/-- Alternatives of the platform scoring regex. -/
def platformPat : List String :=
  ["monetiz", "ads", "revenue", "policy", "algorithm", "update", "creator fund"]

/-- Alternatives of the examples scoring regex. -/
def examplesPat : List String :=
  ["case study", "example", "breakdown", "how to", "strategy", "playbook"]

/-- The `score(item, section)` helper of the digest route: the section name
selects (via `String.includes`) which keyword pattern is tried against the
lowercased `title + " " + snippet`; a hit scores 4, anything else 1. -/
def score (it : Item) (sname : String) : Nat :=
  let t := lcStr (it.title ++ " " ++ it.snippet)
  if strIncl sname "launch" && testAny launchPat t then 4
  else if strIncl sname "Formats" && testAny formatsPat t then 4
  else if strIncl sname "Platform" && testAny platformPat t then 4
  else if strIncl sname "Examples" && testAny examplesPat t then 4
  else 1

/-- A rendered section entry `{headline, blurb, urls}`. -/
structure Entry where
  headline : String
  blurb : String
  urls : List String
deriving DecidableEq

/-- A composed section. -/
structure SectionOut where
  name : String
  items : List Entry
deriving DecidableEq

/-- Rendering of a retained item:
`{headline: it.title, blurb: it.snippet || "Summary unavailable.", urls: [it.url]}`. -/
def renderEntry (it : Item) : Entry :=
  { headline := it.title
    blurb := jsOrS it.snippet "Summary unavailable."
    urls := [it.url] }

/-- Stable insertion of `x` into a descending-by-key list: `x` goes in front of
the first element whose key is not larger, so among equal keys the earlier
original element stays first. -/
def insDesc (key : Item → Nat) (x : Item) : List Item → List Item
  | [] => [x]
  | y :: ys => if key y ≤ key x then x :: y :: ys else y :: insDesc key x ys

/-- Stable descending sort by a numeric key — the semantics of
`[...items].sort((a, b) => key(b) - key(a))` under the ECMAScript guarantee
that `Array.prototype.sort` is stable. -/
def sortDesc (key : Item → Nat) : List Item → List Item
  | [] => []
  | x :: xs => insDesc key x (sortDesc key xs)

/-- One iteration of the section loop: rank the full candidate set by this
section's score, keep the top `maxItems`, render each. -/
def rankSection (items : List Item) (maxItems : Nat) (sname : String) :
    List Entry :=
  ((sortDesc (fun it => score it sname) items).take maxItems).map renderEntry

/-- The section loop of the digest route over the four fixed sections. -/
def composeSections (items : List Item) (maxItems : Nat) : List SectionOut :=
  sectionNames.map (fun n => { name := n, items := rankSection items maxItems n })

/-- A citation record `{url, title, source}`. -/
structure Citation where
  url : String
  title : String
  source : String
deriving DecidableEq

/-- The citation list: first 200 items of the working set, in order, mapped. -/
def citationsOf (items : List Item) : List Citation :=
  (items.take 200).map (fun it => { url := it.url, title := it.title, source := it.source })

/-- The composed digest body. -/
structure Digest where
  title : String
  generated_at : String
  sections : List SectionOut
  citations : List Citation
deriving DecidableEq

/-- The digest response assembled from the working item set. -/
def composeDigest (now : String) (items : List Item) (maxItems : Nat) : Digest :=
  { title := "Digital-First Content Brief"
    generated_at := now
    sections := composeSections items maxItems
    citations := citationsOf items }

/-! ### Feed catalog (part_000 `FEEDS`) -/

/-- A `part_000` feed definition. -/
structure Feed where
  feed_id : String
  name : String
  homepage : String
  content_type : String
  domains : List String
  q : String
deriving DecidableEq

/-- The `part_000` feed catalog (query strings as joined by `.join(" AND ")`). -/
def FEEDS : List Feed :=
  [{ feed_id := "ppc_land", name := "PPC Land", homepage := "https://ppc.land/",
     content_type := "advertising", domains := ["ppc.land"],
     q := "(TikTok OR YouTube OR Instagram OR \"Meta\" OR creator OR \"short form\" OR Shorts OR Reels) AND (ads OR advertising OR monetization OR measurement OR attribution OR \"brand safety\" OR targeting OR privacy OR \"ad product\")" },
   { feed_id := "tubefilter", name := "Tubefilter", homepage := "https://www.tubefilter.com/",
     content_type := "creator_economy", domains := ["tubefilter.com"],
     q := "(YouTube OR TikTok OR Instagram OR creator OR \"creator economy\" OR Shorts OR Reels) AND (launch OR series OR format OR monetization OR partnership OR slate OR funding OR \"creator fund\" OR studio)" },
   { feed_id := "publishpress", name := "PublishPress", homepage := "https://publishpress.com/",
     content_type := "industry_news", domains := ["publishpress.com"],
     q := "(creator OR newsletter OR \"web-first\" OR \"digital-first\" OR Shorts OR Reels OR YouTube OR TikTok) AND (publishing OR distribution OR WordPress OR workflow OR editorial OR CMS)" },
   { feed_id := "hollywood_reporter", name := "The Hollywood Reporter",
     homepage := "https://www.hollywoodreporter.com/", content_type := "entertainment_trade",
     domains := ["hollywoodreporter.com"],
     q := "(YouTube OR TikTok OR creator OR \"digital-first\" OR \"web series\" OR Shorts OR Reels) AND (series OR slate OR launch OR partnership OR studio OR format OR deal)" },
   { feed_id := "google_news_youtube_series_us_en", name := "YouTube Series (US/EN) — proxy bundle",
     homepage := "https://news.google.com/", content_type := "industry_news",
     domains := ["tubefilter.com", "hollywoodreporter.com", "deadline.com", "variety.com",
                 "digiday.com", "adweek.com", "theverge.com", "techcrunch.com",
                 "venturebeat.com", "fastcompany.com"],
     q := "(YouTube OR \"YouTube Shorts\" OR creator OR \"digital studio\" OR \"web series\") AND (series OR episodic OR slate OR pilot OR trailer OR \"new show\" OR \"original series\" OR format) AND (launch OR debut OR announcement OR deal OR partnership OR greenlit)" },
   { feed_id := "tiktok_creativecenter_trends", name := "TikTok Trends — proxy bundle",
     homepage := "https://ads.tiktok.com/business/creativecenter/inspiration/trends",
     content_type := "trends",
     domains := ["socialmediatoday.com", "later.com", "sproutsocial.com", "hootsuite.com",
                 "buffer.com", "searchenginejournal.com", "adweek.com", "digiday.com",
                 "theverge.com", "techcrunch.com"],
     q := "(TikTok) AND (\"Creative Center\" OR trends OR trending OR \"trend report\" OR \"top trends\" OR hashtags OR sounds OR viral) AND (creator OR brands OR ads OR campaign OR \"creative strategy\" OR UGC)" }]

/-- A `server.js` feed definition. -/
structure ServerFeed where
  feed_id : String
  name : String
  domains : List String
  q : String
deriving DecidableEq

/-- The `server.js` feed catalog. -/
def SERVER_FEEDS : List ServerFeed :=
  [{ feed_id := "tubefilter", name := "Tubefilter", domains := ["tubefilter.com"],
     q := "(YouTube OR TikTok OR creator OR \"creator economy\")" },
   { feed_id := "ppc_land", name := "PPC Land", domains := ["ppc.land"],
     q := "(TikTok OR YouTube OR ads OR creator)" },
   { feed_id := "hollywood_reporter", name := "Hollywood Reporter",
     domains := ["hollywoodreporter.com"],
     q := "(YouTube OR TikTok OR creator OR \"digital-first\")" },
   { feed_id := "publishpress", name := "PublishPress", domains := ["publishpress.com"],
     q := "(creator OR newsletter OR YouTube OR TikTok)" },
   { feed_id := "google_news_youtube_series_us_en", name := "YouTube Series (proxy)",
     domains := ["tubefilter.com", "hollywoodreporter.com", "variety.com", "deadline.com"],
     q := "(YouTube AND (series OR \"creator series\" OR episodic))" },
   { feed_id := "tiktok_creativecenter_trends", name := "TikTok Trends (proxy)",
     domains := ["adweek.com", "digiday.com", "socialmediatoday.com", "sproutsocial.com"],
     q := "(TikTok AND (trends OR trending OR hashtags OR sounds))" }]

/-! ### Auth middleware -/

/-- The `part_000` auth middleware: `some (401, msg)` is an early rejection
response, `none` is pass-through (`next()`).  Rejects when `BROKER_KEY` is
falsy, the caller key is falsy, or the two differ. -/
def authP0 (brokerKey key : Option String) : Option (Nat × String) :=
  if jsFalsy brokerKey || jsFalsy key || decide (key ≠ brokerKey) then
    some (401, "Missing/invalid API key")
  else none

/-- The `server.js` auth middleware: rejects exactly when the header value
is not strictly equal to `BROKER_KEY` (absent compares equal to absent). -/
def authSrv (brokerKey key : Option String) : Option (Nat × String) :=
  if decide (key ≠ brokerKey) then some (401, "Invalid API key") else none

/-! ### Outbound search call (fail-fast behaviour) -/

/-- The data of one outbound NewsAPI request. -/
structure SearchRequest where
  q : String
  domains : List String
  fromISO : Option String
  pageSize : Nat
  apiKeyHeader : Option String
deriving DecidableEq

/-- What a search-call invocation does first: fail with a configuration error,
or go to the network with a concrete request. -/
inductive CallStart where
  | configError (msg : String)
  | attempts (req : SearchRequest)
deriving DecidableEq

/-- The `part_000` client `newsapiEverything`: throws
`"Server misconfigured: NEWSAPI_KEY missing"` before building the request
whenever the credential is falsy; otherwise issues the request. -/
def newsapiEverything (apiKey : Option String) (q : String) (domains : List String)
    (fromISO : Option String) (pageSize : Nat) : CallStart :=
  if jsFalsy apiKey then .configError "Server misconfigured: NEWSAPI_KEY missing"
  else .attempts { q := q, domains := domains, fromISO := fromISO,
                   pageSize := pageSize, apiKeyHeader := apiKey }

/-- The `server.js` client `newsapiFetch`: no credential check at all; the
request (with whatever the credential is, present or absent) is always sent. -/
def newsapiFetch (apiKey : Option String) (feed : ServerFeed) (limit : Nat) :
    CallStart :=
  .attempts { q := feed.q, domains := feed.domains, fromISO := none,
              pageSize := limit, apiKeyHeader := apiKey }

/-! ### Digest request validation (part_000 lines 241-252) -/

/-- The feeds a digest request selects: catalog entries whose id occurs in
`sources`; unknown ids select nothing. -/
def selectedFeeds (sources : List String) : List Feed :=
  FEEDS.filter (fun f => sources.contains f.feed_id)

/-- The validation prefix of `POST /v1/newsletter/digest`: 422 on empty
`sources`, 422 when nothing matches the catalog, otherwise the selection. -/
def digestSelect (sources : List String) : Except (Nat × String) (List Feed) :=
  if sources.isEmpty then .error (422, "Invalid inputs (empty sources)")
  else if (selectedFeeds sources).isEmpty then
    .error (422, "Invalid inputs (no matching sources)")
  else .ok (selectedFeeds sources)

/-! ### Concrete articles and items used by scenario facts and counterexamples -/

/-- A provider article with no platform/creator term anywhere in its text. -/
def plainArticle : RawArticle :=
  { title := some "Quarterly earnings report"
    description := some "Company results for the third quarter."
    url := "https://example.com/earnings"
    publishedAt := some "2024-01-01T00:00:00Z" }

/-- A provider article with a provider-supplied publish timestamp. -/
def datedArticle : RawArticle :=
  { title := some "A title"
    description := none
    url := "https://example.com/earnings"
    publishedAt := some "2024-01-01T00:00:00Z" }

/-- The same article as `datedArticle` re-indexed with a later timestamp. -/
def redatedArticle : RawArticle :=
  { title := some "A title"
    description := none
    url := "https://example.com/earnings"
    publishedAt := some "2024-02-02T12:00:00Z" }

/-- The scenario item whose `title + snippet` text is
"TikTok Shorts launch announced". -/
def launchItem : Item :=
  { id := "id0"
    title := "TikTok Shorts launch announced"
    url := "https://example.com/tiktok-shorts"
    source := "tubefilter"
    published_at := "2024-01-01T00:00:00Z"
    snippet := ""
    labels := []
    classification := { digital_first := true, excluded_reasons := [] } }

/-! ## Helper lemmas -/

/-- Boolean tautology behind the classification exclusivity precondition. -/
theorem bool_and_impl_left (x y : Bool) : (!(x && y) || x) = true := by
  cases x <;> cases y <;> rfl

/-- JS `s || ""` on a plain string is the string itself. -/
theorem jsOrS_empty (s : String) : jsOrS s "" = s := by
  unfold jsOrS
  split
  · rename_i h
    exact h.symm
  · rfl

/-- List `contains` is the decision of membership. -/
theorem contains_eq_decide_mem (l : List String) (u : String) :
    l.contains u = decide (u ∈ l) := by
  simp [List.contains, List.elem_eq_mem]

/-- Setting an existing key leaves the key sequence unchanged. -/
theorem mapSet_keys_of_mem (m : List (String × Item)) (k : String) (v : Item)
    (hk : k ∈ m.map Prod.fst) :
    (mapSet m k v).map Prod.fst = m.map Prod.fst := by
  induction m with
  | nil => simp at hk
  | cons p rest ih =>
    by_cases hpk : p.1 = k
    · simp [mapSet, hpk]
    · have hk' : k ∈ rest.map Prod.fst := by
        simp only [List.map_cons, List.mem_cons] at hk
        rcases hk with h | h
        · exact absurd h.symm hpk
        · exact h
      simp [mapSet, hpk, ih hk']

/-- Setting a fresh key appends it at the end of the key sequence. -/
theorem mapSet_keys_of_not_mem (m : List (String × Item)) (k : String) (v : Item)
    (hk : k ∉ m.map Prod.fst) :
    (mapSet m k v).map Prod.fst = m.map Prod.fst ++ [k] := by
  induction m with
  | nil => rfl
  | cons p rest ih =>
    simp only [List.map_cons, List.mem_cons] at hk
    push_neg at hk
    obtain ⟨h1, h2⟩ := hk
    have hpk : ¬(p.1 = k) := fun h => h1 h.symm
    simp [mapSet, hpk, ih h2]

/-- Lookup after a set: the set key now maps to the new value, all other keys
are untouched. -/
theorem mapSet_lookup (m : List (String × Item)) (u k : String) (v : Item) :
    List.lookup k (mapSet m u v) = if k = u then some v else List.lookup k m := by
  induction m with
  | nil =>
    by_cases hku : k = u
    · subst hku
      simp [mapSet, List.lookup_cons]
    · have hb : (k == u) = false := beq_eq_false_iff_ne.mpr hku
      simp [mapSet, List.lookup_cons, hb, hku]
  | cons p rest ih =>
    obtain ⟨a, b⟩ := p
    by_cases hau : a = u
    · subst hau
      by_cases hk : k = a
      · subst hk
        simp [mapSet, List.lookup_cons]
      · have hb : (k == a) = false := beq_eq_false_iff_ne.mpr hk
        simp [mapSet, List.lookup_cons, hb, hk]
    · by_cases hk : k = a
      · have hb : (k == a) = true := beq_iff_eq.mpr hk
        have hku : ¬(k = u) := fun h => hau (hk.symm.trans h)
        simp [mapSet, hau, List.lookup_cons, hb, hku]
      · have hb : (k == a) = false := beq_eq_false_iff_ne.mpr hk
        simp [mapSet, hau, List.lookup_cons, hb, ih]

/-- Keeping first occurrences commutes with filtering. -/
theorem firstOccur_filter (p : String → Bool) (l : List String) :
    firstOccur (l.filter p) = (firstOccur l).filter p := by
  induction l with
  | nil => rfl
  | cons u us ih =>
    by_cases hp : p u = true
    · have l1 : firstOccur ((u :: us).filter p) =
          u :: ((firstOccur us).filter p).filter (fun v => v != u) := by
        rw [List.filter_cons_of_pos hp]
        rw [show firstOccur (u :: us.filter p) =
            u :: (firstOccur (us.filter p)).filter (fun v => v != u) from rfl]
        rw [ih]
      have l2 : (firstOccur (u :: us)).filter p =
          u :: ((firstOccur us).filter (fun v => v != u)).filter p := by
        rw [show firstOccur (u :: us) =
            u :: (firstOccur us).filter (fun v => v != u) from rfl]
        rw [List.filter_cons_of_pos hp]
      rw [l1, l2]
      congr 1
      rw [List.filter_filter, List.filter_filter]
      exact List.filter_congr (fun x _ => Bool.and_comm (x != u) (p x))
    · have l1 : firstOccur ((u :: us).filter p) = (firstOccur us).filter p := by
        rw [List.filter_cons_of_neg hp, ih]
      have l2 : (firstOccur (u :: us)).filter p =
          ((firstOccur us).filter (fun v => v != u)).filter p := by
        rw [show firstOccur (u :: us) =
            u :: (firstOccur us).filter (fun v => v != u) from rfl]
        rw [List.filter_cons_of_neg hp]
      rw [l1, l2, List.filter_filter]
      refine List.filter_congr ?_
      intro x _
      cases hpx : p x with
      | false => rfl
      | true =>
        have hxu : (x != u) = true := by
          refine bne_iff_ne.mpr ?_
          intro hxeq
          apply hp
          rw [← hxeq]
          exact hpx
        rw [hxu, Bool.true_and]

/-- First-occurrence lists have no duplicates. -/
theorem firstOccur_nodup (l : List String) : (firstOccur l).Nodup := by
  induction l with
  | nil => exact List.nodup_nil
  | cons u us ih =>
    rw [firstOccur]
    refine List.nodup_cons.mpr ⟨?_, List.Nodup.filter _ ih⟩
    intro hmem
    have h := (List.mem_filter.mp hmem).2
    simp at h

/-- First-occurrence lists have the same members as the original. -/
theorem mem_firstOccur (x : String) (l : List String) :
    x ∈ firstOccur l ↔ x ∈ l := by
  induction l with
  | nil => simp [firstOccur]
  | cons u us ih =>
    rw [firstOccur]
    by_cases hx : x = u
    · simp [hx]
    · simp [List.mem_cons, List.mem_filter, bne_iff_ne, ih, hx]

/-- The key sequence of the dedup fold: the accumulator's keys followed by
the first occurrences of the still-unseen urls. -/
theorem dedupe_keys_aux (all : List Item) :
    ∀ m : List (String × Item),
      (all.foldl (fun acc it => mapSet acc it.url it) m).map Prod.fst =
        m.map Prod.fst ++
          firstOccur ((all.map Item.url).filter
            (fun u => !((m.map Prod.fst).contains u))) := by
  induction all with
  | nil =>
    intro m
    simp [firstOccur]
  | cons it rest ih =>
    intro m
    rw [List.foldl_cons, ih (mapSet m it.url it)]
    by_cases hmem : it.url ∈ m.map Prod.fst
    · rw [mapSet_keys_of_mem m it.url it hmem, List.map_cons,
        List.filter_cons_of_neg (by simp [contains_eq_decide_mem, hmem])]
    · rw [mapSet_keys_of_not_mem m it.url it hmem, List.map_cons,
        List.filter_cons_of_pos (by simp [contains_eq_decide_mem, hmem])]
      simp only [firstOccur]
      rw [← firstOccur_filter, List.filter_filter, List.append_assoc,
        List.singleton_append]
      congr 2
      apply congrArg
      refine List.filter_congr ?_
      intro x _
      by_cases hx2 : x = it.url
      · subst hx2
        simp [contains_eq_decide_mem, List.mem_append]
      · have hb : (x != it.url) = true := bne_iff_ne.mpr hx2
        by_cases hx1 : x ∈ m.map Prod.fst <;>
          simp [contains_eq_decide_mem, List.mem_append, hx1, hx2, hb]

/-- The value sequence of the dedup fold: each key maps to the last item of
the input with that url, falling back to the accumulator. -/
theorem foldl_lookup (all : List Item) :
    ∀ (m : List (String × Item)) (k : String),
      List.lookup k (all.foldl (fun acc it => mapSet acc it.url it) m) =
        match lastWithUrl k all with
        | some v => some v
        | none => List.lookup k m := by
  induction all with
  | nil =>
    intro m k
    rfl
  | cons it rest ih =>
    intro m k
    rw [List.foldl_cons, ih (mapSet m it.url it)]
    by_cases hk : it.url = k
    · have hfil : lastWithUrl k (it :: rest) = some ((lastWithUrl k rest).getD it) := by
        unfold lastWithUrl
        rw [List.filter_cons_of_pos (by simp [hk]), List.getLast?_cons]
      cases hrest : lastWithUrl k rest with
      | some v => simp [hfil, hrest]
      | none =>
        rw [hfil]
        simp only [hrest, Option.getD_none]
        rw [mapSet_lookup, if_pos hk.symm]
    · have hfil : lastWithUrl k (it :: rest) = lastWithUrl k rest := by
        unfold lastWithUrl
        rw [List.filter_cons_of_neg (by simp [hk])]
      rw [hfil]
      cases hrest : lastWithUrl k rest with
      | some v => simp [hrest]
      | none =>
        simp only [hrest, mapSet_lookup]
        rw [if_neg (fun h => hk h.symm)]

/-- In an association list with distinct keys, lookup finds the stored pair. -/
theorem lookup_eq_of_mem (m : List (String × Item)) (k : String) (v : Item)
    (hnd : (m.map Prod.fst).Nodup) (hmem : (k, v) ∈ m) :
    List.lookup k m = some v := by
  induction m with
  | nil => simp at hmem
  | cons p rest ih =>
    obtain ⟨a, b⟩ := p
    simp only [List.map_cons, List.nodup_cons] at hnd
    rcases List.mem_cons.mp hmem with heq | hrest
    · obtain ⟨hka, hvb⟩ := Prod.mk.injEq .. ▸ heq
      subst hka
      subst hvb
      simp [List.lookup_cons]
    · have hka : ¬(k = a) := by
        intro hka
        subst hka
        exact hnd.1 (List.mem_map.mpr ⟨(k, v), hrest, rfl⟩)
      have hb : (k == a) = false := beq_eq_false_iff_ne.mpr hka
      simp [List.lookup_cons, hb, ih hnd.2 hrest]

/-- Values stored by the dedup fold keep their url as their key. -/
theorem mapSet_wf (m : List (String × Item)) (k : String) (v : Item)
    (hv : v.url = k) (hm : ∀ p ∈ m, (Prod.snd p).url = p.1) :
    ∀ p ∈ mapSet m k v, (Prod.snd p).url = p.1 := by
  induction m with
  | nil =>
    intro p hp
    simp only [mapSet, List.mem_singleton] at hp
    subst hp
    exact hv
  | cons q rest ih =>
    intro p hp
    have hmrest : ∀ p ∈ rest, (Prod.snd p).url = p.1 :=
      fun r hr => hm r (List.mem_cons_of_mem _ hr)
    by_cases hqk : q.1 = k
    · simp only [mapSet, hqk, if_pos] at hp
      rcases List.mem_cons.mp hp with heq | hrest
      · subst heq
        exact hv
      · exact hmrest p hrest
    · simp only [mapSet, hqk, if_neg, not_false_iff] at hp
      rcases List.mem_cons.mp hp with heq | hrest
      · subst heq
        exact hm p (List.mem_cons_self _ _)
      · exact ih hmrest p hrest

/-- The dedup fold preserves the key-equals-url invariant. -/
theorem foldl_wf (all : List Item) :
    ∀ m, (∀ p ∈ m, (Prod.snd p).url = p.1) →
      ∀ p ∈ all.foldl (fun acc it => mapSet acc it.url it) m,
        (Prod.snd p).url = p.1 := by
  induction all with
  | nil => exact fun m hm => hm
  | cons it rest ih =>
    intro m hm
    exact ih _ (mapSet_wf m it.url it rfl hm)

/-- Every section score is 4 or 1. -/
theorem score_two (it : Item) (sname : String) :
    score it sname = 4 ∨ score it sname = 1 := by
  simp only [score]
  split
  · exact Or.inl rfl
  · split
    · exact Or.inl rfl
    · split
      · exact Or.inl rfl
      · split
        · exact Or.inl rfl
        · exact Or.inr rfl

/-- Stable insertion in front of a list of not-larger keys. -/
theorem insDesc_front (key : Item → Nat) (x : Item) (l : List Item)
    (h : ∀ y ∈ l, key y ≤ key x) :
    insDesc key x l = x :: l := by
  cases l with
  | nil => rfl
  | cons y ys =>
    show (if key y ≤ key x then x :: y :: ys else y :: insDesc key x ys) = _
    rw [if_pos (h y (List.mem_cons_self y ys))]

/-- Stable insertion passes over a prefix of strictly larger keys. -/
theorem insDesc_skip (key : Item → Nat) (x : Item) (h t : List Item)
    (hh : ∀ y ∈ h, ¬key y ≤ key x) :
    insDesc key x (h ++ t) = h ++ insDesc key x t := by
  induction h with
  | nil => rfl
  | cons y ys ih =>
    rw [List.cons_append]
    show (if key y ≤ key x then x :: y :: (ys ++ t) else y :: insDesc key x (ys ++ t)) = _
    rw [if_neg (hh y (List.mem_cons_self y ys)),
      ih (fun z hz => hh z (List.mem_cons_of_mem y hz)), List.cons_append]

/-- With a two-valued key the stable descending sort is: the key-4 elements
in original order, then the key-1 elements in original order. -/
theorem sortDesc_two (key : Item → Nat) (hk : ∀ x, key x = 4 ∨ key x = 1)
    (l : List Item) :
    sortDesc key l = l.filter (fun x => decide (key x = 4)) ++
      l.filter (fun x => !decide (key x = 4)) := by
  induction l with
  | nil => rfl
  | cons x xs ih =>
    show insDesc key x (sortDesc key xs) = _
    rw [ih]
    rcases hk x with h4 | h1
    · rw [insDesc_front]
      · rw [List.filter_cons_of_pos (by simp [h4]),
          List.filter_cons_of_neg (by simp [h4]), List.cons_append]
      · intro y hy
        rcases hk y with hy4 | hy1
        · rw [h4, hy4]
        · rw [h4, hy1]
          omega
    · rw [insDesc_skip]
      · rw [insDesc_front]
        · rw [List.filter_cons_of_neg (by simp [h1]),
            List.filter_cons_of_pos (by simp [h1])]
        · intro y hy
          have hmem := List.mem_filter.mp hy
          rcases hk y with hy4 | hy1
          · simp [hy4] at hmem
          · rw [h1, hy1]
      · intro y hy
        have hmem := List.mem_filter.mp hy
        have hy4 : key y = 4 := by simpa using hmem.2
        rw [h1, hy4]
        omega

/-! ## Claim theorems -/

/-- C6: for every item and each of the four fixed sections, the section score
is 4 exactly when the section's keyword pattern matches the item's lowercased
`title + " " + snippet` text and 1 otherwise, and for any section name the
score is never 0; on the scenario item with text
"TikTok Shorts launch announced" the launches score is 4 and the
Platform-moves score is 1. -/
theorem c6_section_scores (it : Item) (sname : String) :
    1 ≤ score it sname ∧
    score it "New digital-first launches" =
      (if testAny launchPat (lcStr (it.title ++ " " ++ it.snippet)) then 4 else 1) ∧
    score it "Formats & creator series to watch" =
      (if testAny formatsPat (lcStr (it.title ++ " " ++ it.snippet)) then 4 else 1) ∧
    score it "Platform moves & monetization" =
      (if testAny platformPat (lcStr (it.title ++ " " ++ it.snippet)) then 4 else 1) ∧
    score it "Examples (what to steal—in a legal way)" =
      (if testAny examplesPat (lcStr (it.title ++ " " ++ it.snippet)) then 4 else 1) ∧
    score launchItem "New digital-first launches" = 4 ∧
    score launchItem "Platform moves & monetization" = 1 := by
  refine ⟨?_, ?_, ?_, ?_, ?_, by decide, by decide⟩
  · simp only [score]
    split
    · omega
    split
    · omega
    split
    · omega
    split <;> omega
  · simp only [score]
    rw [show strIncl "New digital-first launches" "launch" = true from by decide,
      show strIncl "New digital-first launches" "Formats" = false from by decide,
      show strIncl "New digital-first launches" "Platform" = false from by decide,
      show strIncl "New digital-first launches" "Examples" = false from by decide]
    simp
  · simp only [score]
    rw [show strIncl "Formats & creator series to watch" "launch" = false from by decide,
      show strIncl "Formats & creator series to watch" "Formats" = true from by decide,
      show strIncl "Formats & creator series to watch" "Platform" = false from by decide,
      show strIncl "Formats & creator series to watch" "Examples" = false from by decide]
    simp
  · simp only [score]
    rw [show strIncl "Platform moves & monetization" "launch" = false from by decide,
      show strIncl "Platform moves & monetization" "Formats" = false from by decide,
      show strIncl "Platform moves & monetization" "Platform" = true from by decide,
      show strIncl "Platform moves & monetization" "Examples" = false from by decide]
    simp
  · simp only [score]
    rw [show strIncl "Examples (what to steal—in a legal way)" "launch" = false from by decide,
      show strIncl "Examples (what to steal—in a legal way)" "Formats" = false from by decide,
      show strIncl "Examples (what to steal—in a legal way)" "Platform" = false from by decide,
      show strIncl "Examples (what to steal—in a legal way)" "Examples" = true from by decide]
    simp

/-- C4: the digest's citation list is exactly the first 200 items of the
working (deduplicated, optionally digital-first-filtered) item set, in that
set's order, mapped to `{url, title, source}`; its length is at most 200; and
with the filter off the working set is exactly the dedup output. -/
theorem c4_citations (now : String) (all : List Item) (maxItems : Nat) (dfOnly : Bool) :
    (composeDigest now (digestItems all dfOnly) maxItems).citations =
      ((digestItems all dfOnly).take 200).map
        (fun it => { url := it.url, title := it.title, source := it.source }) ∧
    (composeDigest now (digestItems all dfOnly) maxItems).citations.length ≤ 200 ∧
    digestItems all false = dedupeByUrl all := by
  refine ⟨rfl, ?_, rfl⟩
  simp only [composeDigest, citationsOf, List.length_map, List.length_take]
  omega

/-- C9 (amended): the `part_000` client `newsapiEverything` fails fast with
the configuration error and issues no outbound request whenever the provider
credential is absent (or empty, hence falsy); the `server.js` variant lacks
this guard, see the counterexample. -/
theorem c9_failfast (q : String) (domains : List String) (fromISO : Option String)
    (pageSize : Nat) :
    newsapiEverything none q domains fromISO pageSize =
      CallStart.configError "Server misconfigured: NEWSAPI_KEY missing" ∧
    newsapiEverything (some "") q domains fromISO pageSize =
      CallStart.configError "Server misconfigured: NEWSAPI_KEY missing" := by
  exact ⟨rfl, rfl⟩

/-- C9 counterexample: `server.js`'s `newsapiFetch`, invoked on the first
catalog feed with the provider credential absent, proceeds straight to the
outbound network request (carrying no credential header) instead of failing
with a configuration error. -/
theorem c9_counterexample :
    newsapiFetch none
        (SERVER_FEEDS.headD { feed_id := "", name := "", domains := [], q := "" }) 15 =
      CallStart.attempts
        { q := "(YouTube OR TikTok OR creator OR \"creator economy\")"
          domains := ["tubefilter.com"]
          fromISO := none
          pageSize := 15
          apiKeyHeader := none } := by
  rfl

/-- C1 (amended): every item produced by the `part_000` pipeline carries
`digital_first` equal to (`excluded_reasons` empty AND the digital-first hint
pattern matching the article's lowercased title+description+url blob); in
particular `digital_first = true` forces empty `excluded_reasons` for every
produced item.  The `server.js` variant violates this, see the counterexample. -/
theorem c1_classification_invariant (feedId : String) (exclude : List String)
    (now : String) (a : RawArticle) (raws : List RawArticle) :
    (normalizeItem feedId exclude now a).classification.digital_first =
      ((normalizeItem feedId exclude now a).classification.excluded_reasons.isEmpty &&
        testAny digitalHints (rawText a)) ∧
    (p0Items feedId exclude now raws).all
      (fun it => !it.classification.digital_first ||
        it.classification.excluded_reasons.isEmpty) = true := by
  constructor
  · rfl
  · rw [List.all_eq_true]
    intro it hit
    obtain ⟨b, _, rfl⟩ := List.mem_map.mp hit
    exact bool_and_impl_left _ _

/-- C1 counterexample: in the `server.js` variant an article with no
digital-first hint anywhere in its text still gets
`digital_first = true` (with empty `excluded_reasons`), because the items
route hardcodes the classification — so `digital_first` is not equivalent to
the hint pattern having matched. -/
theorem c1_counterexample :
    (serverItemOf "tubefilter" plainArticle).classification.digital_first = true ∧
    testAny digitalHints (rawText plainArticle) = false ∧
    (serverItemOf "tubefilter" plainArticle).classification.excluded_reasons = [] := by
  exact ⟨rfl, by decide, rfl⟩

/-- C3 (amended): in the `part_000` pipeline, an item's `id` is the SHA-256
hex digest of the article url concatenated with the resolved `published_at`
through the fixed separator `"|"`, and the `id` is a function of the article
and the injected time only (the same article normalized again — even under a
different feed or exclude list — gets the identical id).  The `server.js`
variant instead hashes the url alone with SHA-1, see the counterexample. -/
theorem c3_fingerprint (feedId feedId2 : String) (exclude exclude2 : List String)
    (now : String) (a : RawArticle) :
    (normalizeItem feedId exclude now a).id =
      sha256hex (a.url ++ "|" ++ jsOr a.publishedAt now) ∧
    (normalizeItem feedId exclude now a).id = (normalizeItem feedId2 exclude2 now a).id := by
  constructor
  · show stableId a.url (jsOr a.publishedAt now) = _
    unfold stableId
    rw [jsOrS_empty]
  · rfl

set_option maxRecDepth 1000000 in
/-- C3 counterexample: the `server.js` fingerprint of a concrete article is
not the SHA-256 digest of `url ++ "|" ++ published_at` (it is the SHA-1 of
the url alone), and it does not change when the article's publish timestamp
changes. -/
theorem c3_counterexample :
    (serverItemOf "tubefilter" datedArticle).id ≠
      sha256hex ("https://example.com/earnings" ++ "|" ++ "2024-01-01T00:00:00Z") ∧
    (serverItemOf "tubefilter" datedArticle).id =
      (serverItemOf "tubefilter" redatedArticle).id := by
  exact ⟨by decide, rfl⟩

/-- C7: the classification is invariant under permutation of `exclude_tags`,
and `excluded_reasons` is always one of the four lists in fixed vocabulary
order (`linear` before `streaming`), never in input order. -/
theorem c7_classify_order_independent (title description url : String)
    (ex1 ex2 : List String) (h : ex1.Perm ex2) :
    classifyDigitalFirst title description url ex1 =
      classifyDigitalFirst title description url ex2 ∧
    (classifyDigitalFirst title description url ex1).excluded_reasons ∈
      [([] : List String), ["linear"], ["streaming"], ["linear", "streaming"]] := by
  have hc : ∀ s : String, ex1.contains s = ex2.contains s := by
    intro s
    simp only [List.contains, List.elem_eq_mem, h.mem_iff]
  constructor
  · simp only [classifyDigitalFirst]
    rw [hc "linear", hc "streaming"]
  · have hrw : (classifyDigitalFirst title description url ex1).excluded_reasons =
        (if ex1.contains "linear" && testAny linearPat (classifyText title description url)
         then ["linear"] else []) ++
        (if ex1.contains "streaming" && testAny streamingPat (classifyText title description url)
         then ["streaming"] else []) := rfl
    rw [hrw]
    cases ex1.contains "linear" && testAny linearPat (classifyText title description url) <;>
      cases ex1.contains "streaming" &&
          testAny streamingPat (classifyText title description url) <;>
        simp

/-- C7 witness: concrete permutation instance for the classifier invariance,
on the scenario article text containing "Netflix streaming". -/
theorem c7_witness :
    classifyDigitalFirst "Netflix streaming deal" "" "https://example.com/n"
        ["streaming", "linear"] =
      classifyDigitalFirst "Netflix streaming deal" "" "https://example.com/n"
        ["linear", "streaming"] ∧
    (classifyDigitalFirst "Netflix streaming deal" "" "https://example.com/n"
        ["streaming", "linear"]).excluded_reasons ∈
      [([] : List String), ["linear"], ["streaming"], ["linear", "streaming"]] :=
  c7_classify_order_independent "Netflix streaming deal" "" "https://example.com/n"
    ["streaming", "linear"] ["linear", "streaming"] (by decide)

/-- C8: with a broker secret configured (some non-empty string), both
variants' auth middleware reject with a 401 response exactly when the
caller's `X-API-Key` header is missing or differs from the secret, and pass
the request through exactly when the header equals the secret. -/
theorem c8_auth (s : String) (key : Option String) (h : s ≠ "") :
    (authP0 (some s) key = some (401, "Missing/invalid API key") ↔
      (key = none ∨ key ≠ some s)) ∧
    (authP0 (some s) key = none ↔ key = some s) ∧
    (authSrv (some s) key = some (401, "Invalid API key") ↔
      (key = none ∨ key ≠ some s)) ∧
    (authSrv (some s) key = none ↔ key = some s) := by
  cases key with
  | none => simp [authP0, authSrv, jsFalsy]
  | some t =>
    by_cases ht : t = s
    · subst ht
      simp [authP0, authSrv, jsFalsy, h]
    · have h3 : ¬("" = s) := fun hs => h hs.symm
      by_cases h2 : t = "" <;> simp [authP0, authSrv, jsFalsy, ht, h2, h, h3]

/-- C8 witness: with secret "sek" configured and the matching header
supplied, both middlewares pass the request through. -/
theorem c8_auth_witness :
    (authP0 (some "sek") (some "sek") = some (401, "Missing/invalid API key") ↔
      ((some "sek" : Option String) = none ∨ (some "sek" : Option String) ≠ some "sek")) ∧
    (authP0 (some "sek") (some "sek") = none ↔ (some "sek" : Option String) = some "sek") ∧
    (authSrv (some "sek") (some "sek") = some (401, "Invalid API key") ↔
      ((some "sek" : Option String) = none ∨ (some "sek" : Option String) ≠ some "sek")) ∧
    (authSrv (some "sek") (some "sek") = none ↔ (some "sek" : Option String) = some "sek") :=
  c8_auth "sek" (some "sek") (by decide)

/-- C10: a digest request whose `sources` names at least one catalog feed
succeeds (no 422) with exactly the matching feeds selected; every selected
feed was asked for, and unknown feed ids are silently ignored — dropping
them from `sources` leaves the selection unchanged. -/
theorem c10_unknown_sources_ignored (sources : List String) (fid : String)
    (h1 : fid ∈ sources) (h2 : fid ∈ FEEDS.map Feed.feed_id) :
    digestSelect sources = Except.ok (selectedFeeds sources) ∧
    (selectedFeeds sources).all (fun f => sources.contains f.feed_id) = true ∧
    selectedFeeds sources =
      selectedFeeds (sources.filter (fun s => (FEEDS.map Feed.feed_id).contains s)) := by
  obtain ⟨f, hfF, hfid⟩ := List.mem_map.mp h2
  have hfsel : f ∈ selectedFeeds sources := by
    refine List.mem_filter.mpr ⟨hfF, ?_⟩
    simp only [List.contains, List.elem_eq_mem, decide_eq_true_eq]
    rw [hfid]
    exact h1
  refine ⟨?_, ?_, ?_⟩
  · have he : sources.isEmpty = false := by
      rw [List.isEmpty_eq_false]
      exact List.ne_nil_of_mem h1
    have hse : (selectedFeeds sources).isEmpty = false := by
      rw [List.isEmpty_eq_false]
      exact List.ne_nil_of_mem hfsel
    simp [digestSelect, he, hse]
  · rw [List.all_eq_true]
    intro x hx
    exact (List.mem_filter.mp hx).2
  · unfold selectedFeeds
    refine List.filter_congr ?_
    intro g hg
    have hk : g.feed_id ∈ FEEDS.map Feed.feed_id := List.mem_map.mpr ⟨g, hg, rfl⟩
    simp only [List.contains, List.elem_eq_mem]
    rw [decide_eq_decide]
    constructor
    · intro hmem
      refine List.mem_filter.mpr ⟨hmem, ?_⟩
      simp only [List.contains, List.elem_eq_mem, decide_eq_true_eq]
      exact hk
    · intro hmem
      exact (List.mem_filter.mp hmem).1

/-- C2: the dedup merge output has pairwise-distinct urls; its url sequence
is exactly the first-seen insertion order of the input urls; each surviving
item is the last-seen occurrence of its url in the input; and every input
url is represented by some output item. -/
theorem c2_dedupe (all : List Item) :
    ((dedupeByUrl all).map Item.url).Nodup ∧
    (dedupeByUrl all).map Item.url = firstOccur (all.map Item.url) ∧
    (dedupeByUrl all).all
      (fun it => decide (lastWithUrl it.url all = some it)) = true ∧
    all.all
      (fun it => (dedupeByUrl all).any (fun o => decide (o.url = it.url))) = true := by
  have hwf : ∀ p ∈ all.foldl (fun acc it => mapSet acc it.url it) [],
      (Prod.snd p).url = p.1 := by
    refine foldl_wf all [] ?_
    intro p hp
    simp at hp
  have hkeys : (all.foldl (fun acc it => mapSet acc it.url it) []).map Prod.fst =
      firstOccur (all.map Item.url) := by
    have h := dedupe_keys_aux all []
    simpa [contains_eq_decide_mem] using h
  have hurls : (dedupeByUrl all).map Item.url = firstOccur (all.map Item.url) := by
    unfold dedupeByUrl
    rw [List.map_map, ← hkeys]
    refine List.map_congr_left ?_
    intro p hp
    exact hwf p hp
  refine ⟨?_, hurls, ?_, ?_⟩
  · rw [hurls]
    exact firstOccur_nodup _
  · rw [List.all_eq_true]
    intro it hit
    rw [decide_eq_true_eq]
    unfold dedupeByUrl at hit
    obtain ⟨p, hpR, hsnd⟩ := List.mem_map.mp hit
    obtain ⟨a, b⟩ := p
    have hpair : (it.url, it) ∈ all.foldl (fun acc it => mapSet acc it.url it) [] := by
      have h1 : it.url = a := by
        rw [← hsnd]
        exact hwf (a, b) hpR
      have h2 : it = b := hsnd.symm
      rw [h1, h2]
      exact hpR
    have hnd : ((all.foldl (fun acc it => mapSet acc it.url it) []).map Prod.fst).Nodup := by
      rw [hkeys]
      exact firstOccur_nodup _
    have hlk := lookup_eq_of_mem _ it.url it hnd hpair
    have hfold := foldl_lookup all [] it.url
    cases hlast : lastWithUrl it.url all with
    | none =>
      rw [hlast] at hfold
      simp only [List.lookup] at hfold
      rw [hfold] at hlk
      exact absurd hlk (by simp)
    | some v =>
      rw [hlast] at hfold
      have hv : some it = some v := hlk.symm.trans hfold
      rw [Option.some.injEq] at hv
      rw [← hv]
  · rw [List.all_eq_true]
    intro it hit
    rw [List.any_eq_true]
    have hu2 : it.url ∈ (dedupeByUrl all).map Item.url := by
      rw [hurls, mem_firstOccur]
      exact List.mem_map.mpr ⟨it, hit, rfl⟩
    obtain ⟨o, hoR, hou⟩ := List.mem_map.mp hu2
    refine ⟨o, hoR, ?_⟩
    rw [decide_eq_true_eq]
    exact hou

/-- C5: the composed sections are the four fixed ones in order; each
section's entries are exactly the first `maxItems` items of the full
candidate set stably sorted descending by that section's score — with the
two-valued score this is the score-4 items in original order followed by the
score-1 items in original order — rendered to `{headline, blurb, urls}`;
hence every section has at most `maxItems` entries; and one item may appear
in several sections (on a concrete input the scenario item appears in all
four). -/
theorem c5_sections (items : List Item) (maxItems : Nat) :
    (composeSections items maxItems).map SectionOut.name = sectionNames ∧
    (composeSections items maxItems).all
      (fun s => decide (s.items =
        ((sortDesc (fun it => score it s.name) items).take maxItems).map renderEntry ∧
        s.items =
          ((items.filter (fun it => decide (score it s.name = 4)) ++
            items.filter (fun it => !decide (score it s.name = 4))).take maxItems).map
              renderEntry)) = true ∧
    (composeSections items maxItems).all
      (fun s => decide (s.items.length ≤ maxItems)) = true ∧
    (composeSections [launchItem] 6).all
      (fun s => decide (renderEntry launchItem ∈ s.items)) = true := by
  refine ⟨rfl, ?_, ?_, by decide⟩
  · rw [List.all_eq_true]
    intro s hs
    rw [decide_eq_true_eq]
    unfold composeSections at hs
    obtain ⟨n, hn, rfl⟩ := List.mem_map.mp hs
    constructor
    · rfl
    · show rankSection items maxItems n = _
      unfold rankSection
      rw [sortDesc_two (fun it => score it n) (fun x => score_two x n) items]
  · rw [List.all_eq_true]
    intro s hs
    rw [decide_eq_true_eq]
    unfold composeSections at hs
    obtain ⟨n, hn, rfl⟩ := List.mem_map.mp hs
    show (rankSection items maxItems n).length ≤ maxItems
    unfold rankSection
    rw [List.length_map, List.length_take]
    omega

/-- C10 witness: a request naming one unknown and one known feed id selects
exactly the known feed, with no 422 error and the unknown id contributing
nothing. -/
theorem c10_witness :
    digestSelect ["no_such_feed", "tubefilter"] =
      Except.ok (selectedFeeds ["no_such_feed", "tubefilter"]) ∧
    (selectedFeeds ["no_such_feed", "tubefilter"]).all
      (fun f => (["no_such_feed", "tubefilter"] : List String).contains f.feed_id) = true ∧
    selectedFeeds ["no_such_feed", "tubefilter"] =
      selectedFeeds ((["no_such_feed", "tubefilter"] : List String).filter
        (fun s => (FEEDS.map Feed.feed_id).contains s)) :=
  c10_unknown_sources_ignored ["no_such_feed", "tubefilter"] "tubefilter"
    (by decide) (by decide)

end Broker
